import Mathlib

/-!
Shallow embedding of the Hybrid Retrieval & Knowledge Index Engine
(backend/services/bm25_search.py, hybrid_search.py, knowledge_indexer.py,
backend/models/knowledge_schema.py).  Scores are modelled as rationals,
fallible operations as Option/Except, and the external collaborators
(rank_bm25 scoring model, embedding model, cross-encoder) as function
parameters, mirroring how the source consumes them.
-/

namespace OnMyPC

/-! ## Data model (backend/models/knowledge_schema.py)

Only the fields the retrieval engine reads are carried; pydantic models
become plain structures.  Enum-valued fields (DocType, Jurisdiction,
DocumentVersion) are carried as their string values. -/

structure EnrichedChunk where
  chunk_id : String
  doc_id : String
  text : String
  is_header : Bool
  is_definition : Bool
  contains_dates : Bool
  contains_money : Bool
deriving DecidableEq, Inhabited

structure StructuredDocument where
  doc_id : String
  file_path : String
  file_hash : String
  source_folder : String
  doctype : String
  jurisdiction : String
  parties : List String
  effective_date : Option Int
  version : String
deriving DecidableEq, Inhabited

structure SearchQuery where
  text_query : String
  required_terms : List String
  excluded_terms : List String
  doctypes : List String
  jurisdictions : List String
  date_range : Option (Int × Int)
  parties : List String
  boost_recent : Bool
  boost_headers : Bool
  boost_signed_docs : Bool
  top_k : Nat
deriving DecidableEq, Inhabited

/-! ## Tokenizer (BM25SearchEngine.tokenize, bm25_search.py lines 45-84)

The Python regex substitutions are embedded as left-to-right scanners on
the character list.  Each scanner consumes at least one input character
per step; a fuel argument bounded by the input length makes the
recursion structural. -/

def stopWords : List String :=
  ["a", "an", "and", "are", "as", "at", "be", "by", "for",
   "from", "has", "he", "in", "is", "it", "its", "of", "on",
   "that", "the", "to", "was", "will", "with"]

def isWordChar (c : Char) : Bool := c.isAlphanum || c = '_'

def isSpaceChar (c : Char) : Bool := c.isWhitespace

def isLowerAZ (c : Char) : Bool := 'a' ≤ c && c ≤ 'z'

def isDigitComma (c : Char) : Bool := c.isDigit || c = ','

def listStartsWith : List Char → List Char → Bool
  | [], _ => true
  | _ :: _, [] => false
  | a :: as, b :: bs => a = b && listStartsWith as bs

/-- Maximal run of groups matching the regex fragment (\.\d+)*. -/
def parseDotGroups : Nat → List Char → List Char × List Char
  | 0, cs => ([], cs)
  | fuel + 1, cs =>
    match cs with
    | '.' :: rest =>
      match rest.span Char.isDigit with
      | (d :: ds, r) =>
        let p := parseDotGroups fuel r
        ('.' :: d :: ds ++ p.1, p.2)
      | ([], _) => ([], cs)
    | _ => ([], cs)

/-- The regex fragment \d+(?:\.\d+)* used by both section-marker rules. -/
def parseNumber (cs : List Char) : Option (List Char × List Char) :=
  match cs.span Char.isDigit with
  | (d :: ds, r) =>
    let g := parseDotGroups r.length r
    some (d :: ds ++ g.1, g.2)
  | ([], _) => none

/-- The two-character section marker that appears literally in the source
regex (the file stores the section sign in a mangled encoding). -/
def sectionMarker : List Char := ['ย', 'ง']

/-- re.sub of the marker pattern followed by \s*(\d+(?:\.\d+)*), replaced
by section_ plus the number. -/
def subSectionSym : Nat → List Char → List Char
  | 0, cs => cs
  | fuel + 1, cs =>
    match cs with
    | [] => []
    | c :: rest =>
      if cs.take 2 = sectionMarker then
        let sp := (cs.drop 2).span isSpaceChar
        match parseNumber sp.2 with
        | some (num, r2) => ("section_".toList ++ num) ++ subSectionSym fuel r2
        | none => c :: subSectionSym fuel rest
      else c :: subSectionSym fuel rest

/-- re.sub of \bsection\s+(\d+(?:\.\d+)*) replaced by section_ plus the
number.  The boolean argument tracks whether the previous character was a
word character (for the \b word boundary). -/
def subSectionWord : Nat → Bool → List Char → List Char
  | 0, _, cs => cs
  | fuel + 1, prevW, cs =>
    match cs with
    | [] => []
    | c :: rest =>
      if !prevW && cs.take 7 = "section".toList then
        let sp := (cs.drop 7).span isSpaceChar
        if sp.1.isEmpty then c :: subSectionWord fuel (isWordChar c) rest
        else
          match parseNumber sp.2 with
          | some (num, r2) => ("section_".toList ++ num) ++ subSectionWord fuel true r2
          | none => c :: subSectionWord fuel (isWordChar c) rest
      else c :: subSectionWord fuel (isWordChar c) rest

/-- The optional fractional part (?:\.\d+)? of the money regex. -/
def parseFrac (cs : List Char) : List Char × List Char :=
  match cs with
  | '.' :: rest =>
    match rest.span Char.isDigit with
    | (d :: ds, r) => ('.' :: d :: ds, r)
    | ([], _) => ([], cs)
  | _ => ([], cs)

/-- re.sub of \$\s*([\d,]+(?:\.\d+)?) replaced by usd_ plus the captured
group with thousands separators stripped. -/
def subMoney : Nat → List Char → List Char
  | 0, cs => cs
  | fuel + 1, cs =>
    match cs with
    | [] => []
    | '$' :: rest =>
      let sp := rest.span isSpaceChar
      match sp.2.span isDigitComma with
      | (d :: ds, r) =>
        let fr := parseFrac r
        ("usd_".toList ++ ((d :: ds) ++ fr.1).filter (fun c => c ≠ ',')) ++
          subMoney fuel fr.2
      | ([], _) => '$' :: subMoney fuel rest
    | c :: rest => c :: subMoney fuel rest

/-- re.sub of ([a-z]+)-([a-z]+) replaced by the two groups joined with an
underscore. -/
def subHyphen : Nat → List Char → List Char
  | 0, cs => cs
  | fuel + 1, cs =>
    match cs with
    | [] => []
    | c :: rest =>
      match cs.span isLowerAZ with
      | (g1h :: g1t, '-' :: r1) =>
        match r1.span isLowerAZ with
        | (g2h :: g2t, r2) =>
          ((g1h :: g1t) ++ '_' :: g2h :: g2t) ++ subHyphen fuel r2
        | ([], _) => c :: subHyphen fuel rest
      | _ => c :: subHyphen fuel rest

/-- re.findall of \b[\w_]+\b: the maximal runs of word characters. -/
def wordRuns : Nat → List Char → List (List Char)
  | 0, _ => []
  | fuel + 1, cs =>
    match cs with
    | [] => []
    | c :: rest =>
      if isWordChar c then
        let sp := rest.span isWordChar
        (c :: sp.1) :: wordRuns fuel sp.2
      else wordRuns fuel rest

/-- BM25SearchEngine.tokenize.  The source also binds an unused variable
to the year matches of a date regex; that binding has no effect on the
output and is omitted. -/
def tokenize (text : String) : List String :=
  let t0 := text.toList.map Char.toLower
  let t1 := subSectionSym (t0.length + 1) t0
  let t2 := subSectionWord (t1.length + 1) false t1
  let t3 := subMoney (t2.length + 1) t2
  let t4 := subHyphen (t3.length + 1) t3
  let runs := wordRuns (t4.length + 1) t4
  (runs.map fun r => String.mk r).filter fun t =>
    !(stopWords.contains t) || decide (3 < t.length) || t.toList.contains '_'

/-! ## Score fusion pipeline (HybridSearchEngine, hybrid_search.py)

A ScoredEntry is the 5-tuple (chunk, bm25_score, vector_score,
metadata_boost, final_score) threaded through stages 3-5. -/

structure ScoredEntry where
  chunk : EnrichedChunk
  bm25_score : ℚ
  vector_score : ℚ
  metadata_boost : ℚ
  final_score : ℚ
deriving DecidableEq, Inhabited

/-- Descending comparison on final_score, the sort key of stages 3-5. -/
def finalGe (a b : ScoredEntry) : Prop := b.final_score ≤ a.final_score

instance : DecidableRel finalGe := fun a b =>
  inferInstanceAs (Decidable (b.final_score ≤ a.final_score))

instance : IsTotal ScoredEntry finalGe := ⟨fun a b => le_total b.final_score a.final_score⟩

instance : IsTrans ScoredEntry finalGe := ⟨fun _ _ _ h1 h2 => le_trans h2 h1⟩

/-- Descending comparison on the score of a (chunk, score) pair, the sort
key of BM25SearchEngine.search. -/
def pairGe (a b : EnrichedChunk × ℚ) : Prop := b.2 ≤ a.2

instance : DecidableRel pairGe := fun a b =>
  inferInstanceAs (Decidable (b.2 ≤ a.2))

instance : IsTotal (EnrichedChunk × ℚ) pairGe := ⟨fun a b => le_total b.2 a.2⟩

instance : IsTrans (EnrichedChunk × ℚ) pairGe := ⟨fun _ _ _ h1 h2 => le_trans h2 h1⟩

/-- The value stored for a chunk id by the normalized-score dict
comprehensions: the last entry with that id wins, as in a Python dict. -/
def lookupLast (rs : List (EnrichedChunk × ℚ)) (cid : String) : Option ℚ :=
  rs.foldl (fun acc p => if p.1.chunk_id = cid then some p.2 else acc) none

/-- The chunk object stored for a chunk id (dict comprehension, last
entry wins). -/
def chunkLast (rs : List (EnrichedChunk × ℚ)) (cid : String) : Option EnrichedChunk :=
  rs.foldl (fun acc p => if p.1.chunk_id = cid then some p.1 else acc) none

/-- max(score for _, score in results) over a result list. -/
def maxScore? : List (EnrichedChunk × ℚ) → Option ℚ
  | [] => none
  | p :: rest =>
    match maxScore? rest with
    | none => some p.2
    | some m => some (max p.2 m)

/-- One side's normalization: score / max if the side's max is positive,
else 0.0 (hybrid_search.py lines 222-239). -/
def normVal (s m : ℚ) : ℚ := if 0 < m then s / m else 0

/-- The normalized score the fusion loop reads for a chunk id: 0.0 when
the chunk is absent from that side (the .get default). -/
def normScore (rs : List (EnrichedChunk × ℚ)) (cid : String) : ℚ :=
  match lookupLast rs cid, maxScore? rs with
  | some s, some m => normVal s m
  | _, _ => 0

def bm25Weight : ℚ := 2 / 5

def vectorWeight : ℚ := 3 / 5

/-- combined_score = bm25_weight * bm25_score + vector_weight * vector_score. -/
def fusedScore (bm vec : List (EnrichedChunk × ℚ)) (cid : String) : ℚ :=
  bm25Weight * normScore bm cid + vectorWeight * normScore vec cid

/-- First-occurrence-order deduplication of the union of chunk ids of the
two sides (the iteration order of the Python set is unspecified; every
claim proved below is insensitive to it because the list is subsequently
sorted by score). -/
def dedupKeys (l : List String) : List String :=
  l.foldl (fun acc k => if k ∈ acc then acc else acc ++ [k]) []

def allChunkIds (bm vec : List (EnrichedChunk × ℚ)) : List String :=
  dedupKeys (bm.map (fun p => p.1.chunk_id) ++ vec.map (fun p => p.1.chunk_id))

/-- HybridSearchEngine._reciprocal_rank_fusion (hybrid_search.py lines
204-276): normalize each side by its own maximum, union the candidate
sets, combine with the fixed 0.4/0.6 weights and sort descending. -/
def reciprocalRankFusion (bm vec : List (EnrichedChunk × ℚ)) : List ScoredEntry :=
  let fused := (allChunkIds bm vec).map fun cid =>
    { chunk :=
        match chunkLast bm cid with
        | some c => c
        | none => (chunkLast vec cid).getD default,
      bm25_score := normScore bm cid,
      vector_score := normScore vec cid,
      metadata_boost := 0,
      final_score := fusedScore bm vec cid : ScoredEntry }
  List.insertionSort finalGe fused

/-! ## Stage 4: metadata boosting (_apply_metadata_boosting) -/

def boostFactorHeader : ℚ := 13 / 10
def boostFactorDefinition : ℚ := 6 / 5
def boostFactorDates : ℚ := 11 / 10
def boostFactorMoney : ℚ := 11 / 10
def boostFactorSigned : ℚ := 13 / 10
def boostFactorRecent : ℚ := 6 / 5

/-- Substring containment, modelling the Python in operator on strings. -/
def containsSub (hay needle : List Char) : Bool :=
  (List.range (hay.length + 1)).any fun i => listStartsWith needle (hay.drop i)

def lowerList (s : String) : List Char := s.toList.map Char.toLower

/-- The compounding boost factor for one entry.  now and the document's
effective_date are carried as day counts, so that (now - effective).days
< 365 becomes now - d < 365. -/
def chunkBoost (getDoc : String → Option StructuredDocument) (q : SearchQuery)
    (now : Int) (c : EnrichedChunk) : ℚ :=
  (if q.boost_headers && c.is_header then boostFactorHeader else 1) *
  (if c.is_definition then boostFactorDefinition else 1) *
  (if c.contains_dates &&
      (containsSub (lowerList q.text_query) "date".toList ||
       containsSub (lowerList q.text_query) "when".toList)
    then boostFactorDates else 1) *
  (if c.contains_money &&
      (containsSub q.text_query.toList "$".toList ||
       containsSub (lowerList q.text_query) "pay".toList)
    then boostFactorMoney else 1) *
  (match getDoc c.doc_id with
   | none => 1
   | some doc =>
     (if q.boost_signed_docs && (doc.version = "signed" || doc.version = "executed")
       then boostFactorSigned else 1) *
     (match doc.effective_date with
      | some d => if q.boost_recent && now - d < 365 then boostFactorRecent else 1
      | none => 1))

/-- _apply_metadata_boosting (hybrid_search.py lines 278-333): multiply
final_score by the compounding boost and re-sort descending. -/
def applyMetadataBoosting (getDoc : String → Option StructuredDocument)
    (q : SearchQuery) (now : Int) (results : List ScoredEntry) : List ScoredEntry :=
  let boosted := results.map fun e =>
    let b := chunkBoost getDoc q now e.chunk
    { e with metadata_boost := b, final_score := e.final_score * b }
  List.insertionSort finalGe boosted

/-! ## Stage 5 head: optional cross-encoder rerank (_cross_encoder_rerank) -/

/-- _cross_encoder_rerank: final = 0.7 * cross-encoder score + 0.3 *
previous score, then re-sort the rescored list.  The cross-encoder
predict function is an external collaborator taking (query, chunk text)
pairs. -/
def crossEncoderRerank (ce : String → String → ℚ) (q : String)
    (results : List ScoredEntry) : List ScoredEntry :=
  let reranked := results.map fun e =>
    { e with final_score := (7 / 10) * ce q e.chunk.text + (3 / 10) * e.final_score }
  List.insertionSort finalGe reranked

/-- The rerank step of search (hybrid_search.py lines 108-118): only the
top 20 candidates are rescored, the untouched tail keeps its stage-3/4
scores and is appended after the reranked head. -/
def rerankStep (ce : Option (String → String → ℚ)) (q : String)
    (results : List ScoredEntry) : List ScoredEntry :=
  match ce with
  | none => results
  | some f =>
    if 0 < results.length then
      let topk := min 20 results.length
      crossEncoderRerank f q (results.take topk) ++ results.drop topk
    else results

/-- The normalization of search (hybrid_search.py lines 120-131): divide
every final_score by the first entry's final_score when it is positive;
otherwise leave the list unchanged. -/
def normalizeTop (results : List ScoredEntry) : List ScoredEntry :=
  match results with
  | [] => []
  | top :: _ =>
    if 0 < top.final_score then
      results.map fun e => { e with final_score := e.final_score / top.final_score }
    else results

/-- _vector_search_with_filters (hybrid_search.py lines 179-202): a
raising vector engine is caught and treated as an empty result set. -/
def vectorSearchWithFilters (vecOutcome : Except String (List (EnrichedChunk × ℚ))) :
    List (EnrichedChunk × ℚ) :=
  match vecOutcome with
  | .ok l => l
  | .error _ => []

/-- Stages 3-5 of HybridSearchEngine.search: fusion, metadata boosting,
optional rerank, normalization. -/
def pipelineToStage5 (getDoc : String → Option StructuredDocument)
    (ce : Option (String → String → ℚ)) (q : SearchQuery) (now : Int)
    (bm25Results : List (EnrichedChunk × ℚ))
    (vecOutcome : Except String (List (EnrichedChunk × ℚ))) : List ScoredEntry :=
  normalizeTop (rerankStep ce q.text_query
    (applyMetadataBoosting getDoc q now
      (reciprocalRankFusion bm25Results (vectorSearchWithFilters vecOutcome))))

/-! ## Stage 6: result conversion and adaptive threshold selection -/

structure SearchResult where
  chunk : EnrichedChunk
  document : StructuredDocument
  bm25_score : ℚ
  vector_score : ℚ
  metadata_boost : ℚ
  final_score : ℚ
  match_highlights : List String
deriving DecidableEq, Inhabited

/-- _extract_highlights (hybrid_search.py lines 380-411): the first 3
sentences whose tokens intersect the query tokens, falling back to the
first 200 characters. -/
def extractHighlights (tokenizeFn : String → List String) (c : EnrichedChunk)
    (q : SearchQuery) : List String :=
  let queryTokens := tokenizeFn q.text_query
  let chunkTokens := tokenizeFn c.text
  let matched := queryTokens.filter fun t => chunkTokens.contains t
  if matched.isEmpty then [String.mk (c.text.toList.take 200) ++ "..."]
  else
    let sentences := c.text.splitOn ". "
    let highlights :=
      ((sentences.filter fun s => (tokenizeFn s).any fun t => matched.contains t).map
        String.trim).take 3
    if highlights.isEmpty then [String.mk (c.text.toList.take 200) ++ "..."]
    else highlights

/-- The threshold branch of search (hybrid_search.py lines 158-171):
strict keeps only above-threshold results; otherwise below-threshold
results backfill up to min_results, and both branches truncate to
max_results. -/
def selectResults (above below : List SearchResult) (minR maxR : Nat)
    (strict : Bool) : List SearchResult :=
  if strict then above.take maxR
  else if minR ≤ above.length then above.take maxR
  else
    let needed := min (minR - above.length) below.length
    (above ++ below.take needed).take maxR

/-- HybridSearchEngine.search from stage 3 on (hybrid_search.py lines
86-177), taking the stage-1 lexical result list and the stage-2 vector
outcome as inputs.  Chunks whose owning document is unknown to the BM25
engine are dropped during conversion. -/
def hybridSearch (getDoc : String → Option StructuredDocument)
    (ce : Option (String → String → ℚ)) (now : Int) (q : SearchQuery)
    (bm25Results : List (EnrichedChunk × ℚ))
    (vecOutcome : Except String (List (EnrichedChunk × ℚ)))
    (scoreThreshold : ℚ) (minResults maxResults : Nat)
    (strictThreshold : Bool) : List SearchResult :=
  let normalized := pipelineToStage5 getDoc ce q now bm25Results vecOutcome
  let resolved := normalized.filterMap fun e =>
    match getDoc e.chunk.doc_id with
    | none => none
    | some doc =>
      some { chunk := e.chunk, document := doc, bm25_score := e.bm25_score,
             vector_score := e.vector_score, metadata_boost := e.metadata_boost,
             final_score := e.final_score,
             match_highlights := extractHighlights tokenize e.chunk q : SearchResult }
  let above := resolved.filter fun r => decide (scoreThreshold ≤ r.final_score)
  let below := resolved.filter fun r => decide (r.final_score < scoreThreshold)
  selectResults above below minResults maxResults strictThreshold

/-! ## LexicalIndex (BM25SearchEngine, bm25_search.py)

The BM25 scoring model itself comes from the external rank_bm25 library;
it is modelled as a function from query tokens to the per-chunk score
list, paired by position with the chunk list as in the source. -/

structure BM25State where
  chunks : List EnrichedChunk
  documents : List StructuredDocument
  indexBuilt : Bool
deriving Inhabited

/-- BM25SearchEngine.search (bm25_search.py lines 122-173). The
filter_doc_ids argument follows Python truthiness: both None and the
empty list impose no restriction. -/
def bm25Search (st : BM25State) (getScores : List String → List ℚ)
    (query : String) (topK : Nat) (filterDocIds : Option (List String)) :
    List (EnrichedChunk × ℚ) :=
  if !st.indexBuilt || st.chunks.isEmpty then []
  else
    let qTokens := tokenize query
    if qTokens.isEmpty then []
    else
      let scores := getScores qTokens
      let results := (st.chunks.zip scores).filter fun p =>
        (match filterDocIds with
         | some (d :: ds) => (d :: ds).contains p.1.doc_id
         | _ => true) && decide (0 < p.2)
      (List.insertionSort pairGe results).take topK

/-- BM25SearchEngine._apply_filters (bm25_search.py lines 229-271):
narrow the document set by each truthy filter, and return None (no
filtering) when nothing was narrowed. -/
def applyFilters (docs : List StructuredDocument) (q : SearchQuery) :
    Option (List String) :=
  let c1 := if q.doctypes.isEmpty then docs
    else docs.filter fun d => q.doctypes.contains d.doctype
  let c2 := if q.jurisdictions.isEmpty then c1
    else c1.filter fun d => q.jurisdictions.contains d.jurisdiction
  let c3 :=
    match q.date_range with
    | none => c2
    | some (sd, ed) => c2.filter fun d =>
        match d.effective_date with
        | some x => decide (sd ≤ x) && decide (x ≤ ed)
        | none => false
  let c4 := if q.parties.isEmpty then c3
    else c3.filter fun d =>
      q.parties.any fun p =>
        (d.parties.map fun x => String.mk (lowerList x)).contains (String.mk (lowerList p))
  if c4.length < docs.length then some (c4.map fun d => d.doc_id) else none

/-- The candidate list is passed through Python truthiness before
reaching search: None and the empty list both become no filter. -/
def toFilter : Option (List String) → Option (List String)
  | some (d :: ds) => some (d :: ds)
  | _ => none

/-- query_text plus the required terms appended with spaces. -/
def queryTextWithRequired (q : SearchQuery) : String :=
  if q.required_terms.isEmpty then q.text_query
  else q.text_query ++ " " ++ String.intercalate " " q.required_terms

/-- The excluded-terms postfilter of search_with_filters: drop any result
whose chunk tokens intersect the excluded token set. -/
def applyExcludedTerms (q : SearchQuery) (results : List (EnrichedChunk × ℚ)) :
    List (EnrichedChunk × ℚ) :=
  if q.excluded_terms.isEmpty then results
  else
    let excludedTokens := q.excluded_terms.foldl (fun acc t => acc ++ tokenize t) []
    results.filter fun p => !(excludedTokens.any fun tk => (tokenize p.1.text).contains tk)

/-- BM25SearchEngine.search_with_filters (bm25_search.py lines 175-227). -/
def searchWithFilters (st : BM25State) (getScores : List String → List ℚ)
    (q : SearchQuery) : List (EnrichedChunk × ℚ) :=
  let cand := applyFilters st.documents q
  applyExcludedTerms q
    (bm25Search st getScores (queryTextWithRequired q) (q.top_k * 2) (toFilter cand))

/-! ## IndexManager (KnowledgeIndexer, knowledge_indexer.py)

Source files are modelled by their resolved path and raw content; the
SHA-256 digest of the content is an abstract function parameter, so two
files with identical bytes have, by congruence, identical hashes. -/

structure SrcFile where
  path : String
  content : String
deriving DecidableEq, Inhabited

/-- _is_within_folder on resolved absolute paths: the folder path,
followed by a separator, is a prefix of the file path. -/
def isWithinFolder (filePath folder : String) : Bool :=
  listStartsWith (folder.toList ++ ['/']) filePath.toList || filePath = folder

def take12 (s : String) : String := String.mk (s.toList.take 12)

/-- LegalDocumentParser.parse_document, restricted to the identity fields
the indexer reads (advanced_parser.py line 146: doc_id is the first 12
hex characters of the SHA-256 file hash; the parser tags every parsed
document version as signed). -/
def parseDocument (h : String → String) (f : SrcFile) : StructuredDocument :=
  { doc_id := take12 (h f.content),
    file_path := f.path,
    file_hash := h f.content,
    source_folder := "",
    doctype := "other",
    jurisdiction := "OTHER",
    parties := [],
    effective_date := none,
    version := "signed" }

/-- The existing_docs_by_hash dict: for duplicate hashes the last
document wins, as in a Python dict comprehension. -/
def docByHash (docs : List StructuredDocument) (hv : String) :
    Option StructuredDocument :=
  docs.foldl (fun acc d => if d.file_hash = hv then some d else acc) none

/-- KnowledgeIndexer.index_directory (knowledge_indexer.py lines
71-218), reduced to its corpus-update semantics: documents previously
indexed from the target folder are replaced; a file whose hash matches a
document kept from another folder is skipped; otherwise the file is
parsed.  When no document is kept or parsed for the target folder the
corpus is left untouched (the early no_documents return). -/
def indexDirectory (h : String → String) (existing : List StructuredDocument)
    (targetFolder : String) (files : List SrcFile) (forceReindex : Bool) :
    List StructuredDocument :=
  let remaining := existing.filter fun d => !(isWithinFolder d.file_path targetFolder)
  let removedHashes :=
    (existing.filter fun d => isWithinFolder d.file_path targetFolder).map
      fun d => d.file_hash
  let newDocs := files.foldl
    (fun acc f =>
      let fh := h f.content
      if forceReindex then
        acc ++ [{ parseDocument h f with source_folder := targetFolder }]
      else
        match docByHash existing fh with
        | some ed =>
          if removedHashes.contains fh then
            acc ++ [{ ed with source_folder := targetFolder }]
          else acc
        | none => acc ++ [{ parseDocument h f with source_folder := targetFolder }])
    []
  if newDocs.isEmpty then existing else remaining ++ newDocs

/-! ## Persistence (KnowledgeIndexer.load_indexes, lines 295-351)

Each on-disk artifact is modelled as Option (Option payload): none is a
missing file, some none one whose load raises (caught by the outer
except), some (some v) a readable one.  The FAISS payload is opaque. -/

structure Disk where
  docsFile : Option (Option (List StructuredDocument))
  chunksFile : Option (Option (List EnrichedChunk))
  faissFile : Option (Option Nat)
  bm25Dir : Bool
deriving DecidableEq, Inhabited

structure IndexerState where
  documents : List StructuredDocument
  chunks : List EnrichedChunk
  faiss : Option Nat
  bm25Built : Bool
deriving DecidableEq, Inhabited

def emptyIndexerState : IndexerState :=
  { documents := [], chunks := [], faiss := none, bm25Built := false }

/-- KnowledgeIndexer.load_indexes: each artifact is checked and loaded in
turn, mutating the manager's fields as it goes; a missing file or a
raising load returns False, keeping whatever fields were already
assigned. -/
def loadIndexes (disk : Disk) (st : IndexerState) : Bool × IndexerState :=
  match disk.docsFile with
  | none => (false, st)
  | some none => (false, st)
  | some (some docs) =>
    let st1 := { st with documents := docs }
    match disk.chunksFile with
    | none => (false, st1)
    | some none => (false, st1)
    | some (some chs) =>
      let st2 := { st1 with chunks := chs }
      match disk.faissFile with
      | none => (false, st2)
      | some none => (false, st2)
      | some (some fi) =>
        let st3 := { st2 with faiss := some fi }
        if !disk.bm25Dir then (false, st3)
        else (true, { st3 with bm25Built := true })

/-! ## Concrete fixtures used by the theorems -/

def plainChunk (cid did : String) : EnrichedChunk :=
  { chunk_id := cid, doc_id := did, text := "", is_header := false,
    is_definition := false, contains_dates := false, contains_money := false }

def lex21 : List (EnrichedChunk × ℚ) :=
  [(plainChunk "c01" "d", 1), (plainChunk "c02" "d", 1), (plainChunk "c03" "d", 1),
   (plainChunk "c04" "d", 1), (plainChunk "c05" "d", 1), (plainChunk "c06" "d", 1),
   (plainChunk "c07" "d", 1), (plainChunk "c08" "d", 1), (plainChunk "c09" "d", 1),
   (plainChunk "c10" "d", 1), (plainChunk "c11" "d", 1), (plainChunk "c12" "d", 1),
   (plainChunk "c13" "d", 1), (plainChunk "c14" "d", 1), (plainChunk "c15" "d", 1),
   (plainChunk "c16" "d", 1), (plainChunk "c17" "d", 1), (plainChunk "c18" "d", 1),
   (plainChunk "c19" "d", 1), (plainChunk "c20" "d", 1), (plainChunk "c21" "d", 1)]

def plainQuery : SearchQuery :=
  { text_query := "x", required_terms := [], excluded_terms := [], doctypes := [],
    jurisdictions := [], date_range := none, parties := [], boost_recent := false,
    boost_headers := false, boost_signed_docs := false, top_k := 10 }

def maxFinal (l : List ScoredEntry) : ℚ := (l.map fun e => e.final_score).foldr max 0

def exDocD : StructuredDocument :=
  { doc_id := "deadbeef0123", file_path := "/kb/a.txt", file_hash := "deadbeef",
    source_folder := "/kb", doctype := "contract", jurisdiction := "US",
    parties := [], effective_date := none, version := "signed" }

def exDiskNoChunks : Disk :=
  { docsFile := some (some [exDocD]), chunksFile := none, faissFile := none,
    bm25Dir := false }

/-- Folding a score into an optional running maximum, the shape of
maxScore? on a list split around one distinguished entry. -/
def mOpt (s : ℚ) : Option ℚ → ℚ
  | none => s
  | some m => max s m

def wSR (s : ℚ) : SearchResult :=
  { chunk := plainChunk "w" "d", document := exDocD, bm25_score := 0,
    vector_score := 0, metadata_boost := 1, final_score := s, match_highlights := [] }

def wChunkA : EnrichedChunk := plainChunk "a1" "dA"

def wChunkB : EnrichedChunk := plainChunk "b1" "dB"

def wState : BM25State :=
  { chunks := [wChunkA, wChunkB], documents := [], indexBuilt := true }

def wScores : List String → List ℚ := fun _ => [2, 1]

def w10Doc : StructuredDocument :=
  { doc_id := "dC", file_path := "/kb/c.txt", file_hash := "hc", source_folder := "/kb",
    doctype := "contract", jurisdiction := "US", parties := [], effective_date := none,
    version := "signed" }

def w10Chunk : EnrichedChunk := plainChunk "cc1" "dC"

def w10State : BM25State :=
  { chunks := [w10Chunk], documents := [w10Doc], indexBuilt := true }

def w10Scores : List String → List ℚ := fun _ => [5]

def w10Query : SearchQuery :=
  { text_query := "pay", required_terms := [], excluded_terms := [], doctypes := ["nda"],
    jurisdictions := [], date_range := none, parties := [], boost_recent := false,
    boost_headers := false, boost_signed_docs := false, top_k := 5 }

/-! ## Theorems for the claims -/

/-- C1: fusing a 3-chunk corpus with raw lexical scores [4,0,0] and raw
semantic scores [0,2,1] normalizes each side by its own maximum (lexical
[1,0,0], semantic [0,1,1/2]), combines them as 0.4·lex + 0.6·sem with
0.0 for an absent side, and yields fused scores 2/5, 3/5, 3/10 in
descending order chunk2, chunk1, chunk3. -/
theorem C1_fusion_worked_example :
    reciprocalRankFusion
        [(plainChunk "chunk1" "d", 4), (plainChunk "chunk2" "d", 0),
         (plainChunk "chunk3" "d", 0)]
        [(plainChunk "chunk1" "d", 0), (plainChunk "chunk2" "d", 2),
         (plainChunk "chunk3" "d", 1)] =
      [{ chunk := plainChunk "chunk2" "d", bm25_score := 0, vector_score := 1,
         metadata_boost := 0, final_score := 3 / 5 },
       { chunk := plainChunk "chunk1" "d", bm25_score := 1, vector_score := 0,
         metadata_boost := 0, final_score := 2 / 5 },
       { chunk := plainChunk "chunk3" "d", bm25_score := 0, vector_score := 1 / 2,
         metadata_boost := 0, final_score := 3 / 10 }] := by
  norm_num +decide [reciprocalRankFusion, allChunkIds, dedupKeys, normScore,
    fusedScore, lookupLast, chunkLast, maxScore?, normVal, bm25Weight, vectorWeight,
    List.insertionSort, List.orderedInsert, finalGe, plainChunk, List.foldl]

/-- C5: tokenizing the worked example does yield usd_1000000 and does
drop the stop word by, but the section marker is split at the period
into the two terms section_5 and 2; the single joined term section_5.2
never appears in the output. -/
theorem C5_tokenize_example_eval :
    tokenize "Pay $1,000,000 by Section 5.2" = ["pay", "usd_1000000", "section_5", "2"]
    ∧ "usd_1000000" ∈ tokenize "Pay $1,000,000 by Section 5.2"
    ∧ "by" ∉ tokenize "Pay $1,000,000 by Section 5.2"
    ∧ "section_5.2" ∉ tokenize "Pay $1,000,000 by Section 5.2" := by
  decide

/-- C4: ingesting two files with identical bytes at different paths in
the same index_directory run over an empty corpus yields two Documents,
not one; they share the content-derived id (first 12 characters of the
hash) and hash but differ in path. -/
theorem C4_same_run_duplicate (h : String → String) :
    ∃ d₁ d₂,
      indexDirectory h [] "/kb"
          [⟨"/kb/a.txt", "SAME BYTES"⟩, ⟨"/kb/b.txt", "SAME BYTES"⟩] false = [d₁, d₂]
      ∧ d₁.doc_id = d₂.doc_id ∧ d₁.file_hash = d₂.file_hash
      ∧ d₁.file_path ≠ d₂.file_path := by
  refine ⟨{ parseDocument h ⟨"/kb/a.txt", "SAME BYTES"⟩ with source_folder := "/kb" },
          { parseDocument h ⟨"/kb/b.txt", "SAME BYTES"⟩ with source_folder := "/kb" },
          rfl, rfl, rfl, ?_⟩
  simp +decide [parseDocument]

/-- C7 counterexample: loading from a disk whose documents artifact is
readable but whose chunks artifact is missing returns failure, yet
leaves the manager holding the loaded documents with no chunks - the
partially loaded state the claim says is never observable. -/
theorem C7_counterexample :
    (loadIndexes exDiskNoChunks emptyIndexerState).1 = false
    ∧ (loadIndexes exDiskNoChunks emptyIndexerState).2.documents = [exDocD]
    ∧ (loadIndexes exDiskNoChunks emptyIndexerState).2.documents ≠ []
    ∧ (loadIndexes exDiskNoChunks emptyIndexerState).2.chunks = [] := by
  decide

/-- C3: with a configured reranker, 21 fused candidates of equal score
and a cross-encoder returning 0 leave an untouched 21st candidate whose
stage-3 score exceeds the reranked head; the stage-5 division by the
first entry's score then produces a maximum final score of 10/3, not 1. -/
theorem C3_rerank_breaks_normalization :
    pipelineToStage5 (fun _ => none) (some fun _ _ => 0) plainQuery 0 lex21
        (Except.ok []) ≠ []
    ∧ maxFinal (pipelineToStage5 (fun _ => none) (some fun _ _ => 0) plainQuery 0 lex21
        (Except.ok [])) = 10 / 3
    ∧ maxFinal (pipelineToStage5 (fun _ => none) (some fun _ _ => 0) plainQuery 0 lex21
        (Except.ok [])) ≠ 1 := by
  norm_num +decide [pipelineToStage5, reciprocalRankFusion, allChunkIds, dedupKeys,
    normScore, fusedScore, lookupLast, chunkLast, maxScore?, normVal, bm25Weight,
    vectorWeight, vectorSearchWithFilters, applyMetadataBoosting, chunkBoost,
    rerankStep, crossEncoderRerank, normalizeTop, maxFinal, List.insertionSort,
    List.orderedInsert, finalGe, plainChunk, plainQuery, lex21, List.foldl,
    List.foldr, List.take_succ_cons, List.drop_succ_cons]

/-- The above/below partition of the threshold stage covers the list. -/
theorem length_filter_above_below (l : List SearchResult) (θ : ℚ) :
    (l.filter fun r => decide (θ ≤ r.final_score)).length +
      (l.filter fun r => decide (r.final_score < θ)).length = l.length := by
  induction l with
  | nil => simp
  | cons a t ih =>
    by_cases h : θ ≤ a.final_score
    · simp only [List.filter_cons, decide_eq_true_eq]
      rw [if_pos h, if_neg (not_lt.mpr h)]
      simp only [List.length_cons]
      omega
    · simp only [List.filter_cons, decide_eq_true_eq]
      rw [if_neg h, if_pos (not_le.mp h)]
      simp only [List.length_cons]
      omega

/-- C2: in non-strict mode the adaptive threshold selection applied to
the threshold partition of any candidate list returns at least
min(min_results, total_candidates) results, provided min_results does
not exceed max_results (as with the source defaults 3 and 10): enough
above-threshold results are truncated to max_results, otherwise
best-scoring below-threshold results backfill up to min_results before
the truncation. -/
theorem C2_threshold_floor (resolved : List SearchResult) (θ : ℚ) (minR maxR : Nat)
    (hminmax : minR ≤ maxR) :
    min minR resolved.length ≤
      (selectResults (resolved.filter fun r => decide (θ ≤ r.final_score))
        (resolved.filter fun r => decide (r.final_score < θ)) minR maxR false).length := by
  have hpart := length_filter_above_below resolved θ
  unfold selectResults
  simp only [Bool.false_eq_true, if_false]
  by_cases hcase : minR ≤ (resolved.filter fun r => decide (θ ≤ r.final_score)).length
  · rw [if_pos hcase]
    simp only [List.length_take]
    omega
  · rw [if_neg hcase]
    simp only [List.length_take, List.length_append]
    omega

/-- C2 witness: four candidates with scores 1, 1/2, 1/5, 1/10 against
threshold 3/10, min_results 3, max_results 10. -/
theorem C2_threshold_floor_witness :
    (3 : Nat) ≤ 10 ∧
    min 3 ([wSR 1, wSR (1/2), wSR (1/5), wSR (1/10)] : List SearchResult).length ≤
      (selectResults
        (([wSR 1, wSR (1/2), wSR (1/5), wSR (1/10)] : List SearchResult).filter
          fun r => decide ((3:ℚ)/10 ≤ r.final_score))
        (([wSR 1, wSR (1/2), wSR (1/5), wSR (1/10)] : List SearchResult).filter
          fun r => decide (r.final_score < (3:ℚ)/10)) 3 10 false).length :=
  ⟨by norm_num,
   C2_threshold_floor [wSR 1, wSR (1/2), wSR (1/5), wSR (1/10)] ((3:ℚ)/10) 3 10
     (by norm_num)⟩

/-- C7 (amended): load_indexes returns an explicit failure value, not a
raised error, whenever any of the four artifacts is missing or
unreadable; but the manager's fields assigned before the failing
artifact keep their newly loaded values (see the counterexample). -/
theorem C7_load_failure_returns_false (disk : Disk) (st : IndexerState)
    (hmiss : disk.docsFile = none ∨ disk.docsFile = some none ∨
      disk.chunksFile = none ∨ disk.chunksFile = some none ∨
      disk.faissFile = none ∨ disk.faissFile = some none ∨ disk.bm25Dir = false) :
    (loadIndexes disk st).1 = false := by
  obtain ⟨df, cf, ff, bd⟩ := disk
  cases df with
  | none => rfl
  | some o1 =>
    cases o1 with
    | none => rfl
    | some docs =>
      cases cf with
      | none => rfl
      | some o2 =>
        cases o2 with
        | none => rfl
        | some chs =>
          cases ff with
          | none => rfl
          | some o3 =>
            cases o3 with
            | none => rfl
            | some fi =>
              cases bd with
              | false => rfl
              | true => simp_all

/-- C7 witness: the disk with a readable documents artifact and a
missing chunks artifact. -/
theorem C7_load_failure_witness :
    (loadIndexes exDiskNoChunks emptyIndexerState).1 = false :=
  C7_load_failure_returns_false exDiskNoChunks emptyIndexerState
    (Or.inr (Or.inr (Or.inl rfl)))

/-- C8: a vector search that raises is treated exactly as an empty
semantic result set: the pipeline completes on the lexical candidates
alone; and when both sides are empty the ranker returns the empty
result list for every parameter combination. -/
theorem C8_degraded_mode :
    (∀ getDoc ce now q bm e θ minR maxR strict,
      hybridSearch getDoc ce now q bm (Except.error e) θ minR maxR strict =
        hybridSearch getDoc ce now q bm (Except.ok []) θ minR maxR strict)
    ∧ (∀ getDoc ce now q θ minR maxR strict,
      hybridSearch getDoc ce now q [] (Except.ok []) θ minR maxR strict = []) := by
  constructor
  · intro getDoc ce now q bm e θ minR maxR strict
    rfl
  · intro getDoc ce now q θ minR maxR strict
    have hpipe : pipelineToStage5 getDoc ce q now [] (Except.ok []) = [] := by
      cases ce <;>
        simp [pipelineToStage5, reciprocalRankFusion, allChunkIds, dedupKeys,
          applyMetadataBoosting, rerankStep, crossEncoderRerank, normalizeTop,
          vectorSearchWithFilters, List.insertionSort]
    cases strict <;> simp [hybridSearch, hpipe, selectResults]

/-- Entries whose chunk id differs from the key leave the lookup
accumulator unchanged. -/
theorem foldl_lookup_const (l : List (EnrichedChunk × ℚ)) (cid : String) (acc : Option ℚ)
    (h : ∀ p ∈ l, p.1.chunk_id ≠ cid) :
    l.foldl (fun a p => if p.1.chunk_id = cid then some p.2 else a) acc = acc := by
  induction l generalizing acc with
  | nil => rfl
  | cons p t ih =>
    simp only [List.foldl_cons]
    rw [if_neg (h p (by simp))]
    exact ih acc fun q hq => h q (by simp [hq])

/-- When the distinguished entry is the last occurrence of its chunk id,
the dict lookup returns its score. -/
theorem lookupLast_append_unique (pre post : List (EnrichedChunk × ℚ))
    (c : EnrichedChunk) (s : ℚ)
    (hpost : ∀ p ∈ post, p.1.chunk_id ≠ c.chunk_id) :
    lookupLast (pre ++ (c, s) :: post) c.chunk_id = some s := by
  unfold lookupLast
  rw [List.foldl_append, List.foldl_cons, if_pos rfl]
  exact foldl_lookup_const post c.chunk_id (some s) hpost

theorem maxScore?_cons (p : EnrichedChunk × ℚ) (l : List (EnrichedChunk × ℚ)) :
    maxScore? (p :: l) = some (mOpt p.2 (maxScore? l)) := by
  cases h : maxScore? l <;> simp [maxScore?, h, mOpt]

/-- The side maximum of a list split around one distinguished entry is
the entry's score folded into the maximum of the remaining entries. -/
theorem maxScore?_append_cons (pre post : List (EnrichedChunk × ℚ))
    (c : EnrichedChunk) (s : ℚ) :
    maxScore? (pre ++ (c, s) :: post) = some (mOpt s (maxScore? (pre ++ post))) := by
  induction pre with
  | nil => simp [maxScore?_cons]
  | cons p t ih =>
    rw [List.cons_append, maxScore?_cons, ih, List.cons_append, maxScore?_cons]
    cases h : maxScore? (t ++ post) <;>
      simp [mOpt, max_comm, max_left_comm]

/-- Core monotonicity of one side's normalization: raising a score while
the other entries are fixed never lowers its share of the side maximum. -/
theorem normVal_mOpt_mono (s₁ s₂ : ℚ) (M : Option ℚ) (h : s₁ ≤ s₂) :
    normVal s₁ (mOpt s₁ M) ≤ normVal s₂ (mOpt s₂ M) := by
  cases M with
  | none =>
    simp only [mOpt, normVal]
    by_cases h1 : 0 < s₁
    · have h2 : 0 < s₂ := lt_of_lt_of_le h1 h
      rw [if_pos h1, if_pos h2, div_self (ne_of_gt h1), div_self (ne_of_gt h2)]
    · rw [if_neg h1]
      by_cases h2 : 0 < s₂
      · rw [if_pos h2, div_self (ne_of_gt h2)]
        norm_num
      · rw [if_neg h2]
  | some m =>
    simp only [mOpt, normVal]
    by_cases h2 : 0 < max s₂ m
    · by_cases h1 : 0 < max s₁ m
      · rw [if_pos h1, if_pos h2]
        by_cases hs2 : s₂ ≤ m
        · rw [max_eq_right (le_trans h hs2), max_eq_right hs2]
          have hm : 0 < m := by
            have := max_eq_right hs2
            rw [this] at h2
            exact h2
          exact (div_le_div_iff_of_pos_right hm).mpr h
        · have e2 : max s₂ m = s₂ := max_eq_left (le_of_lt (not_le.mp hs2))
          rw [e2, div_self (ne_of_gt (by rw [e2] at h2; exact h2))]
          exact (div_le_one h1).mpr (le_max_left s₁ m)
      · rw [if_neg h1, if_pos h2]
        have hm : m ≤ 0 := le_trans (le_max_right s₁ m) (not_lt.mp h1)
        have hs2 : 0 < s₂ := by
          rcases max_cases s₂ m with ⟨he, _⟩ | ⟨he, _⟩
          · rw [he] at h2; exact h2
          · rw [he] at h2; exact absurd h2 (not_lt.mpr hm)
        exact le_of_lt (div_pos hs2 h2)
    · have h1 : ¬ 0 < max s₁ m :=
        fun hc => h2 (lt_of_lt_of_le hc (max_le_max h (le_refl m)))
      rw [if_neg h1, if_neg h2]

/-- C9: for a chunk appearing (as last occurrence of its id) in one
side's result list, raising its raw score on that side while every
other entry of that side and the whole other side stay fixed never
decreases its fused score 0.4·lex_norm + 0.6·sem_norm; stated and
proved for both sides: the first conjunct raises the lexical raw score
against a fixed semantic list, the second raises the semantic raw score
against a fixed lexical list. -/
theorem C9_fusion_monotonicity (pre post other : List (EnrichedChunk × ℚ))
    (c : EnrichedChunk) (s₁ s₂ : ℚ) (hs : s₁ ≤ s₂)
    (hpost : ∀ p ∈ post, p.1.chunk_id ≠ c.chunk_id) :
    (fusedScore (pre ++ (c, s₁) :: post) other c.chunk_id ≤
      fusedScore (pre ++ (c, s₂) :: post) other c.chunk_id)
    ∧ (fusedScore other (pre ++ (c, s₁) :: post) c.chunk_id ≤
      fusedScore other (pre ++ (c, s₂) :: post) c.chunk_id) := by
  have hnorm : normScore (pre ++ (c, s₁) :: post) c.chunk_id ≤
      normScore (pre ++ (c, s₂) :: post) c.chunk_id := by
    unfold normScore
    rw [lookupLast_append_unique pre post c s₁ hpost,
        lookupLast_append_unique pre post c s₂ hpost,
        maxScore?_append_cons pre post c s₁, maxScore?_append_cons pre post c s₂]
    exact normVal_mOpt_mono s₁ s₂ _ hs
  unfold fusedScore
  constructor
  · exact add_le_add_right
      (mul_le_mul_of_nonneg_left hnorm (by norm_num [bm25Weight])) _
  · exact add_le_add_left
      (mul_le_mul_of_nonneg_left hnorm (by norm_num [vectorWeight])) _

/-- C9 witness: a single-entry result list with the score raised from 1
to 2, used once as the lexical side and once as the semantic side, the
other side empty in each case. -/
theorem C9_fusion_monotonicity_witness :
    (1 : ℚ) ≤ 2 ∧
    (fusedScore [(plainChunk "w9" "d", 1)] [] (plainChunk "w9" "d").chunk_id ≤
      fusedScore [(plainChunk "w9" "d", 2)] [] (plainChunk "w9" "d").chunk_id)
    ∧ (fusedScore [] [(plainChunk "w9" "d", 1)] (plainChunk "w9" "d").chunk_id ≤
      fusedScore [] [(plainChunk "w9" "d", 2)] (plainChunk "w9" "d").chunk_id) :=
  ⟨by norm_num,
   (C9_fusion_monotonicity [] [] [] (plainChunk "w9" "d") 1 2 (by norm_num) (by simp)).1,
   (C9_fusion_monotonicity [] [] [] (plainChunk "w9" "d") 1 2 (by norm_num) (by simp)).2⟩

/-- C10: a metadata filter combination matching zero documents makes
_apply_filters return the empty candidate list, which search_with_filters
passes through Python truthiness as no filter at all, so the BM25 search
runs over the entire corpus; concretely, a corpus whose only document
violates the doctype filter still has its chunk returned. -/
theorem C10_empty_filter_full_scan :
    (∀ st g q, applyFilters st.documents q = some [] →
        searchWithFilters st g q =
          applyExcludedTerms q
            (bm25Search st g (queryTextWithRequired q) (q.top_k * 2) none))
    ∧ (searchWithFilters w10State w10Scores w10Query = [(w10Chunk, 5)]
       ∧ applyFilters w10State.documents w10Query = some []
       ∧ w10Doc.doctype ∉ w10Query.doctypes) := by
  refine ⟨?_, by decide, by decide, by decide⟩
  intro st g q hq
  simp only [searchWithFilters]
  rw [hq]
  rfl

/-- C10 witness: the general part applied to the concrete corpus whose
filters match zero documents. -/
theorem C10_empty_filter_full_scan_witness :
    searchWithFilters w10State w10Scores w10Query =
      applyExcludedTerms w10Query
        (bm25Search w10State w10Scores (queryTextWithRequired w10Query)
          (w10Query.top_k * 2) none) :=
  C10_empty_filter_full_scan.1 w10State w10Scores w10Query (by decide)

/-- C6: for every index state, scoring model, query and top_k, search
returns at most top_k results, every returned score is positive, a
non-empty document filter restricts results to its ids, the output is
sorted descending by score, and a query with empty tokenization returns
the empty list rather than an error. -/
theorem C6_lexical_search_contract (st : BM25State) (g : List String → List ℚ)
    (query : String) (topK : Nat) (filt : Option (List String)) :
    (bm25Search st g query topK filt).length ≤ topK
    ∧ (∀ p ∈ bm25Search st g query topK filt, 0 < p.2)
    ∧ (∀ l, filt = some l → l ≠ [] →
        ∀ p ∈ bm25Search st g query topK filt, p.1.doc_id ∈ l)
    ∧ List.Sorted pairGe (bm25Search st g query topK filt)
    ∧ (tokenize query = [] → bm25Search st g query topK filt = []) := by
  simp only [bm25Search]
  by_cases h1 : (!st.indexBuilt || st.chunks.isEmpty) = true
  · rw [if_pos h1]
    simp
  · rw [if_neg h1]
    by_cases h2 : (tokenize query).isEmpty = true
    · rw [if_pos h2]
      simp
    · rw [if_neg h2]
      have hmem : ∀ p, p ∈ (List.insertionSort pairGe
          ((st.chunks.zip (g (tokenize query))).filter fun p =>
            (match filt with
             | some (d :: ds) => (d :: ds).contains p.1.doc_id
             | _ => true) && decide (0 < p.2))).take topK →
          ((match filt with
            | some (d :: ds) => (d :: ds).contains p.1.doc_id
            | _ => true) && decide (0 < p.2)) = true := by
        intro p hp
        have hp1 := List.mem_of_mem_take hp
        have hp2 := (List.perm_insertionSort pairGe _).mem_iff.mp hp1
        exact (List.mem_filter.mp hp2).2
      refine ⟨List.length_take_le _ _, ?_, ?_, ?_, ?_⟩
      · intro p hp
        have h' := hmem p hp
        rw [Bool.and_eq_true] at h'
        exact of_decide_eq_true h'.2
      · intro l hfilt hlne p hp
        have h' := hmem p hp
        rw [Bool.and_eq_true] at h'
        have hcond := h'.1
        subst hfilt
        cases l with
        | nil => exact absurd rfl hlne
        | cons d ds => simpa using hcond
      · exact List.Pairwise.sublist (List.take_sublist _ _)
          (List.sorted_insertionSort pairGe _)
      · intro htok
        exact absurd (by rw [htok]; rfl) h2

/-- C6 witness: a two-chunk corpus searched with top_k 1, and the empty
tokenization case on the empty query string. -/
theorem C6_lexical_search_contract_witness :
    (bm25Search wState wScores "pay" 1 (some ["dA"])).length ≤ 1
    ∧ bm25Search wState wScores "" 1 none = [] :=
  ⟨(C6_lexical_search_contract wState wScores "pay" 1 (some ["dA"])).1,
   (C6_lexical_search_contract wState wScores "" 1 none).2.2.2.2 (by decide)⟩

end OnMyPC
